import Mathlib

/-!
Shallow embedding of `iam.py` (slack_iam): the date-range resolution and
status-aggregation logic of the `/iam` Slack command.

Modelling conventions:
* Python strings are `List Char`; the Python string operations used by the
  source (`lower`, `upper`, `strip`, `split`, `split(sep)`, `replace`,
  `in`, `join`, `sorted`) are given structural, executable definitions
  below with the same semantics on the ASCII texts the program handles.
* Calendar dates are `Nat` (day numbers).  The source stores dates as ISO
  `YYYY-MM-DD` strings, whose lexicographic order coincides with calendar
  order, so `Nat` with `≤` is an order-faithful abstraction; `natChars`
  stands for the string rendering of a stored date.
* The external `parsedatetime` library is a parameter `DateLib`: its
  `parseDT` either returns a value with a confidence flag (flag `0` means
  no confident parse) or raises (`LibResult.raised` models an exception
  escaping the library, e.g. an out-of-range year).  `render` stands for
  `str(datetime.date())`.
* Python exceptions become `Except Err`: `Err.invalidDate` is the
  `InvalidDate` exception, `Err.invalidRange` is the `AssertionError`
  raised by the two range asserts (the error kind the spec calls
  `InvalidRange`), `Err.libFault` is an exception propagating out of the
  library call uncaught, and `Err.indexError` is the `IndexError` from
  indexing an empty token list.
-/

def chars (s : String) : List Char := s.data

def isWs (c : Char) : Bool := c == ' ' || c == '\t' || c == '\n' || c == '\r'

/-- ASCII lower-casing of one character, as Python `str.lower` acts on the ASCII texts here. -/
def lowerChar (c : Char) : Char :=
  match c with
  | 'A' => 'a' | 'B' => 'b' | 'C' => 'c' | 'D' => 'd' | 'E' => 'e'
  | 'F' => 'f' | 'G' => 'g' | 'H' => 'h' | 'I' => 'i' | 'J' => 'j'
  | 'K' => 'k' | 'L' => 'l' | 'M' => 'm' | 'N' => 'n' | 'O' => 'o'
  | 'P' => 'p' | 'Q' => 'q' | 'R' => 'r' | 'S' => 's' | 'T' => 't'
  | 'U' => 'u' | 'V' => 'v' | 'W' => 'w' | 'X' => 'x' | 'Y' => 'y'
  | 'Z' => 'z'
  | c => c

/-- ASCII upper-casing of one character, as Python `str.upper` acts on the ASCII texts here. -/
def upperChar (c : Char) : Char :=
  match c with
  | 'a' => 'A' | 'b' => 'B' | 'c' => 'C' | 'd' => 'D' | 'e' => 'E'
  | 'f' => 'F' | 'g' => 'G' | 'h' => 'H' | 'i' => 'I' | 'j' => 'J'
  | 'k' => 'K' | 'l' => 'L' | 'm' => 'M' | 'n' => 'N' | 'o' => 'O'
  | 'p' => 'P' | 'q' => 'Q' | 'r' => 'R' | 's' => 'S' | 't' => 'T'
  | 'u' => 'U' | 'v' => 'V' | 'w' => 'W' | 'x' => 'X' | 'y' => 'Y'
  | 'z' => 'Z'
  | c => c

/-- Python `s.lower()`. -/
def pyLower (s : List Char) : List Char := s.map lowerChar

/-- Python `s.upper()`. -/
def pyUpper (s : List Char) : List Char := s.map upperChar

/-- Python `s.strip()`: drop leading and trailing whitespace. -/
def pyStrip (s : List Char) : List Char :=
  ((s.dropWhile isWs).reverse.dropWhile isWs).reverse

/-- Whether `s` starts with `pat`. -/
def listStartsWith : List Char → List Char → Bool
  | _, [] => true
  | [], _ :: _ => false
  | c :: cs, p :: ps => c == p && listStartsWith cs ps

/-- Python `pat in s` (substring containment). -/
def containsList (s pat : List Char) : Bool :=
  match s with
  | [] => pat.isEmpty
  | _ :: cs => listStartsWith s pat || containsList cs pat

/-- Helper for `pySplitOn`: leftmost-first non-overlapping split, fuelled
by the remaining length (`pat` is non-empty in every use, so the fuel
never runs out). -/
def pySplitOnAux (pat : List Char) : Nat → List Char → List Char → List (List Char)
  | _, acc, [] => [acc.reverse]
  | 0, acc, rest => [acc.reverse ++ rest]
  | fuel + 1, acc, c :: cs =>
    if listStartsWith (c :: cs) pat then
      acc.reverse :: pySplitOnAux pat fuel [] (List.drop pat.length (c :: cs))
    else
      pySplitOnAux pat fuel (c :: acc) cs

/-- Python `s.split(pat)` for a non-empty separator `pat`. -/
def pySplitOn (s pat : List Char) : List (List Char) :=
  pySplitOnAux pat s.length [] s

/-- Helper for `pySplitWs`. -/
def pySplitWsAux : List Char → List Char → List (List Char)
  | [], acc => if acc.isEmpty then [] else [acc.reverse]
  | c :: cs, acc =>
    if isWs c then
      if acc.isEmpty then pySplitWsAux cs [] else acc.reverse :: pySplitWsAux cs []
    else
      pySplitWsAux cs (c :: acc)

/-- Python `s.split()`: split on whitespace runs, dropping empty pieces. -/
def pySplitWs (s : List Char) : List (List Char) := pySplitWsAux s []

/-- Helper for `pyReplace`, fuelled by the remaining length. -/
def pyReplaceAux (old new : List Char) : Nat → List Char → List Char
  | _, [] => []
  | 0, rest => rest
  | fuel + 1, c :: cs =>
    if listStartsWith (c :: cs) old then
      new ++ pyReplaceAux old new fuel (List.drop old.length (c :: cs))
    else
      c :: pyReplaceAux old new fuel cs

/-- Python `s.replace(old, new)` for non-empty `old`: replaces every
leftmost-first non-overlapping occurrence. -/
def pyReplace (s old new : List Char) : List Char :=
  pyReplaceAux old new s.length s

/-- Python `sep.join(pieces)`. -/
def pyJoin (sep : List Char) : List (List Char) → List Char
  | [] => []
  | [x] => x
  | x :: y :: rest => x ++ sep ++ pyJoin sep (y :: rest)

/-- Lexicographic less-or-equal on code points, as Python string `<=`. -/
def lexLe : List Char → List Char → Bool
  | [], _ => true
  | _ :: _, [] => false
  | a :: as, b :: bs => a < b || (a == b && lexLe as bs)

/-- Insert one line into a sorted list of lines. -/
def insertLine (x : List Char) : List (List Char) → List (List Char)
  | [] => [x]
  | y :: ys => if lexLe x y then x :: y :: ys else y :: insertLine x ys

/-- Python `sorted` on a list of strings (ascending lexicographic). -/
def pySort : List (List Char) → List (List Char)
  | [] => []
  | x :: xs => insertLine x (pySort xs)

/-- Rendering of a `Nat` in decimal, standing for the stored date string. -/
def digitChar : Nat → Char
  | 0 => '0' | 1 => '1' | 2 => '2' | 3 => '3' | 4 => '4'
  | 5 => '5' | 6 => '6' | 7 => '7' | 8 => '8' | _ => '9'

/-- Helper for `natChars`, fuelled. -/
def natCharsAux : Nat → Nat → List Char → List Char
  | 0, _, acc => acc
  | fuel + 1, n, acc =>
    if n < 10 then digitChar n :: acc
    else natCharsAux fuel (n / 10) (digitChar (n % 10) :: acc)

/-- Decimal rendering of a day number (stands for the ISO date string). -/
def natChars (n : Nat) : List Char := natCharsAux (n + 1) n []

/-! ### The external date library and the error taxonomy -/

/-- Outcome of `parsedatetime.Calendar().parseDT(s, sourceTime)`:
either a value with its confidence flag (`flag = 0` means the grammar
found no date), or an exception escaping the library call. -/
inductive LibResult where
  | parsed (date : Nat) (flag : Nat)
  | raised
deriving DecidableEq

/-- The external library plus the date-to-string rendering used by the
range loop (`str(datetime.date())`). -/
structure DateLib where
  parseDT : List Char → LibResult
  render : Nat → List Char

/-- Python exceptions reaching the boundaries modelled here. -/
inductive Err where
  | invalidDate (expr : List Char)
  | invalidRange
  | libFault
  | indexError
deriving DecidableEq

/-! ### parse_date (iam.py lines 86-103) -/

/-- Embedding of `parse_date`: calls the library; a positive flag yields
the date, flag `0` raises `InvalidDate` with the offending expression; an
exception inside the library propagates (there is no `try` in the
source). -/
def parse_date (L : DateLib) (date_str : List Char) : Except Err Nat :=
  match L.parseDT date_str with
  | LibResult.parsed d flag => if flag > 0 then Except.ok d else Except.error (Err.invalidDate date_str)
  | LibResult.raised => Except.error Err.libFault

/-! ### parse_date_options (iam.py lines 155-190) -/

/-- The module constant `through_words = [' through ', ' to ', ' thru ']`. -/
def through_words : List (List Char) := [chars " through ", chars " to ", chars " thru "]

/-- The conjunction separator literal `' and '`. -/
def andSep : List Char := chars " and "

/-- The Python list comprehension `[parse_date(o) for o in opts]`: maps
left to right, the first exception propagating. -/
def mapParse (L : DateLib) : List (List Char) → Except Err (List Nat)
  | [] => Except.ok []
  | o :: rest =>
    match parse_date L o with
    | Except.error e => Except.error e
    | Except.ok d =>
      match mapParse L rest with
      | Except.error e => Except.error e
      | Except.ok ds => Except.ok (d :: ds)

/-- Embedding of `parse_date_options`, branch for branch:
1. if `' and ' in opts.lower()`, split the lowered text on every
   `' and '` and hand each piece to the final per-piece `parse_date` map;
2. else if a through-word occurs, pick the first one in declared order,
   split on it, assert exactly two pieces (`AssertionError` =
   `Err.invalidRange`), resolve both, assert start ≤ end, and build the
   day-by-day list of rendered dates for the final map to re-parse (the
   source re-parses them through `parse_date` at line 190);
3. else the whole original text is the single piece.
The monadic binds of the `do`-flow are written as explicit matches. -/
def parse_date_options (L : DateLib) (opts : List Char) : Except Err (List Nat) :=
  let low := pyLower opts
  if containsList low andSep then
    mapParse L (pySplitOn low andSep)
  else
    match through_words.find? (fun tw => containsList low tw) with
    | some split_word =>
      match pySplitOn low split_word with
      | [d0, d1] =>
        match parse_date L d0 with
        | Except.error e => Except.error e
        | Except.ok s =>
          match parse_date L d1 with
          | Except.error e => Except.error e
          | Except.ok e =>
            if s ≤ e then
              mapParse L ((List.range (e - s + 1)).map (fun i => L.render (s + i)))
            else
              Except.error Err.invalidRange
      | _ => Except.error Err.invalidRange
    | none => mapParse L [opts]

/-- The options preprocessing of `log_time_task` (iam.py lines 217-221):
empty options default to the literal `'today'` before expansion. -/
def log_time_dates (L : DateLib) (options : List Char) : Except Err (List Nat) :=
  parse_date_options L (if options.isEmpty then chars "today" else options)

/-! ### Command parsing (iam.py lines 67-83) -/

/-- Embedding of `parse_subcommand`: first whitespace token of the
stripped text, lowercased; indexing an empty token list raises
`IndexError`. -/
def parse_subcommand (command_text : List Char) : Except Err (List Char) :=
  match pySplitWs (pyStrip command_text) with
  | [] => Except.error Err.indexError
  | t :: _ => Except.ok (pyLower t)

/-- Embedding of `parse_options`: `command_text.replace(sc, '').strip()`
where `sc` is the parsed subcommand — Python `replace` removes every
occurrence of `sc`, not only the leading token. -/
def parse_options (command_text : List Char) : Except Err (List Char) :=
  match parse_subcommand command_text with
  | Except.error e => Except.error e
  | Except.ok sc => Except.ok (pyStrip (pyReplace command_text sc []))

/-! ### Status records and the aggregators (iam.py lines 118-152, 193-209) -/

/-- One stored status record (a DynamoDB item). -/
structure StatusRecord where
  user_id : List Char
  user_name : List Char
  date : Nat
  status : List Char
deriving DecidableEq

/-- Embedding of `get_todays_status`: the store query keeps records whose
date equals today; the comprehension keeps recognized statuses and
formats `"{user_name} - {STATUS}"`; `sorted` orders the lines. -/
def get_todays_status (records : List StatusRecord) (today : Nat) : List (List Char) :=
  pySort (((records.filter (fun r => r.date == today)).filter
    (fun r => pyLower r.status == chars "wfh" || pyLower r.status == chars "ooo")).map
    (fun r => r.user_name ++ chars " - " ++ pyUpper r.status))

/-- Embedding of `get_history`: the store query keeps records of the user
with date ≥ a month ago; the comprehension keeps recognized statuses with
date ≤ today and formats `"{date} - {STATUS}"`. -/
def get_history (records : List StatusRecord) (user_id : List Char) (month_ago today : Nat) :
    List (List Char) :=
  pySort (((records.filter (fun r => r.user_id == user_id && decide (month_ago ≤ r.date))).filter
    (fun r => (pyLower r.status == chars "wfh" || pyLower r.status == chars "ooo")
      && decide (r.date ≤ today))).map
    (fun r => natChars r.date ++ chars " - " ++ pyUpper r.status))

/-- Embedding of `get_schedule`: a full scan; the comprehension keeps
recognized statuses within [today, a month from now] and formats
`"{date} - {user_name} - {STATUS}"`. -/
def get_schedule (records : List StatusRecord) (today month_from_now : Nat) :
    List (List Char) :=
  pySort ((records.filter
    (fun r => (pyLower r.status == chars "wfh" || pyLower r.status == chars "ooo")
      && decide (today ≤ r.date) && decide (r.date ≤ month_from_now))).map
    (fun r => natChars r.date ++ chars " - " ++ r.user_name ++ chars " - " ++ pyUpper r.status))

/-! ### The /iam request handler (iam.py lines 263-359) -/

def help_text : List Char := chars "Use this command to set or check your status."

def help_attachment_text : List Char := chars
  ("Use `/iam [subcommand]` with one of the following:\n" ++
   "\t -`wfh` to set a working from home status or `ooo` " ++
   "to set out of office status followed by a time (defaults to today). \n" ++
   "\t\t multiple dates can be given using \x27and\x27 or a range using \x27through\x27 \n" ++
   "\t\t and dates can be given in a range of natural formats, e.g. tomorrow, wednesday, 2019-03-12, etc.)\n" ++
   "\t -`in` to set your status to in office (to override an earlier OOO or WFH. \n" ++
   "\t -`history` to check your recent history, \n" ++
   "\t -`today` to see everyone\x27s status for the current day, \n" ++
   "\t -`schedule` to check scheduled OOO or WFH status. \n" ++
   "e.g. `/iam wfh tomorrow and friday`, `/iam ooo 4/13/2019`, or `/iam schedule`")

/-- The JSON payload returned by a branch of the handler: the
`response_type` field when present, the `text`, and the texts of the
attachments. -/
structure SlackResponse where
  response_type : Option (List Char)
  text : List Char
  attachments : List (List Char)
deriving DecidableEq

/-- Embedding of the `iam` view function after signature validation: parse
subcommand and options (an `IndexError` from an empty token list
propagates uncaught), then dispatch.  The store is the `records` list and
the resolved window bounds (`today`, `month_ago`, `month_from_now`) are
passed in.  The write branch returns the immediate ephemeral
acknowledgement; the `today` branch substitutes the fixed message for an
empty listing; the `schedule` branch does not. -/
def iam (records : List StatusRecord) (today month_ago month_from_now : Nat)
    (request_text user_id : List Char) : Except Err SlackResponse :=
  match parse_subcommand request_text with
  | Except.error e => Except.error e
  | Except.ok subcommand =>
    match parse_options request_text with
    | Except.error e => Except.error e
    | Except.ok _options =>
      if subcommand == chars "wfh" || subcommand == chars "ooo" || subcommand == chars "in" then
        Except.ok ⟨some (chars "ephemeral"), chars "logging...", []⟩
      else if subcommand == chars "help" then
        Except.ok ⟨none, help_text, [help_attachment_text]⟩
      else if subcommand == chars "schedule" then
        Except.ok ⟨some (chars "in_channel"), chars "Upcoming WFH/OOO statuses:",
          [pyJoin (chars "\n") (get_schedule records today month_from_now)]⟩
      else if subcommand == chars "today" then
        let ts := pyJoin (chars "\n") (get_todays_status records today)
        Except.ok ⟨some (chars "in_channel"), chars "Today\x27s WFH/OOO statuses:",
          [if ts.isEmpty then chars "Everyone is planning to be in office today." else ts]⟩
      else if subcommand == chars "history" then
        Except.ok ⟨none, chars "My WFH/OOO status from the past month:",
          [pyJoin (chars "\n") (get_history records user_id month_ago today)]⟩
      else
        Except.ok ⟨none, chars "Unknown subcommand!", [help_attachment_text]⟩

/-! ### Decidability and a concrete demonstration library -/

instance {e a : Type} [DecidableEq e] [DecidableEq a] : DecidableEq (Except e a) := fun x y =>
  match x, y with
  | Except.ok v, Except.ok w =>
    if h : v = w then isTrue (congrArg Except.ok h) else isFalse (fun hc => h (Except.ok.inj hc))
  | Except.ok _, Except.error _ => isFalse (fun hc => Except.noConfusion hc)
  | Except.error _, Except.ok _ => isFalse (fun hc => Except.noConfusion hc)
  | Except.error v, Except.error w =>
    if h : v = w then isTrue (congrArg Except.error h) else isFalse (fun hc => h (Except.error.inj hc))

/-- A concrete library instance for evaluating the expander on sample
expressions: a few fixed weekday resolutions, round-trips on the rendered
day numbers 10-14, one malformed expression on which the library raises
(a year that overflows `datetime`), and zero confidence on everything
else. -/
def demoLib : DateLib where
  parseDT := fun s =>
    if s == chars "monday" then LibResult.parsed 10 1
    else if s == chars "friday" then LibResult.parsed 14 1
    else if s == chars "today" then LibResult.parsed 7 1
    else if s == chars "tuesday through friday" then LibResult.parsed 20 1
    else if s == natChars 10 then LibResult.parsed 10 1
    else if s == natChars 11 then LibResult.parsed 11 1
    else if s == natChars 12 then LibResult.parsed 12 1
    else if s == natChars 13 then LibResult.parsed 13 1
    else if s == natChars 14 then LibResult.parsed 14 1
    else if s == chars "99999999999999/1/1" then LibResult.raised
    else LibResult.parsed 0 0
  render := natChars

/-! ### Helper lemmas -/

theorem mem_insertLine (x y : List Char) (l : List (List Char)) :
    x ∈ insertLine y l ↔ x = y ∨ x ∈ l := by
  induction l with
  | nil => simp [insertLine]
  | cons z zs ih =>
    simp only [insertLine]
    split
    · simp
    · simp only [List.mem_cons, ih]
      tauto

theorem mem_pySort (x : List Char) (l : List (List Char)) :
    x ∈ pySort l ↔ x ∈ l := by
  induction l with
  | nil => simp [pySort]
  | cons y ys ih => simp [pySort, mem_insertLine, ih]

theorem mapParse_ok_length (L : DateLib) :
    ∀ {ps : List (List Char)} {ds : List Nat},
      mapParse L ps = Except.ok ds → ds.length = ps.length := by
  intro ps
  induction ps with
  | nil =>
    intro ds h
    simp only [mapParse] at h
    cases h
    rfl
  | cons o os ih =>
    intro ds h
    simp only [mapParse] at h
    cases hp : parse_date L o with
    | error er => rw [hp] at h; cases h
    | ok d =>
      rw [hp] at h
      cases hm : mapParse L os with
      | error er => rw [hm] at h; cases h
      | ok ds2 =>
        rw [hm] at h
        cases h
        simp [ih hm]

theorem mapParse_render (L : DateLib) (l : List Nat)
    (h : ∀ d ∈ l, parse_date L (L.render d) = Except.ok d) :
    mapParse L (l.map L.render) = Except.ok l := by
  induction l with
  | nil => rfl
  | cons d ds ih =>
    simp only [List.map_cons, mapParse]
    rw [h d (by simp), ih (fun x hx => h x (by simp [hx]))]

/-! ### Claim theorems -/

/-- C1: for options text containing both the separator `' and '` and a
range connector, `parse_date_options` splits only on `' and '` and hands
each resulting segment straight to the single-date resolver; the range
branch is never taken and connectors inside a segment are not expanded. -/
theorem conjunction_precedes_range (L : DateLib) (opts : List Char)
    (hand : containsList (pyLower opts) andSep = true)
    (_hthrough : through_words.any (fun tw => containsList (pyLower opts) tw) = true) :
    parse_date_options L opts = mapParse L (pySplitOn (pyLower opts) andSep) := by
  unfold parse_date_options
  simp [hand]

theorem conjunction_precedes_range_w :
    parse_date_options demoLib (chars "monday and tuesday through friday") = Except.ok [10, 20] := by
  rw [conjunction_precedes_range demoLib _ (by decide) (by decide)]
  decide

/-- C4: for options text containing `' and '` (case-insensitively), the
expander splits on every occurrence, resolves each piece independently in
written order, and keeps duplicates: the result has exactly one date per
piece. -/
theorem conjunction_split_all (L : DateLib) (opts : List Char)
    (ps : List (List Char)) (ds : List Nat)
    (hand : containsList (pyLower opts) andSep = true)
    (hs : pySplitOn (pyLower opts) andSep = ps)
    (hm : mapParse L ps = Except.ok ds) :
    parse_date_options L opts = Except.ok ds ∧ ds.length = ps.length := by
  constructor
  · unfold parse_date_options
    simp only [hand, if_true]
    rw [hs, hm]
  · exact mapParse_ok_length L hm

theorem conjunction_split_all_w :
    parse_date_options demoLib (chars "monday and monday") = Except.ok [10, 10] ∧
    ([10, 10] : List Nat).length = [chars "monday", chars "monday"].length :=
  conjunction_split_all demoLib (chars "monday and monday")
    [chars "monday", chars "monday"] [10, 10] (by decide) (by decide) (by decide)

/-- C5: empty options text is treated exactly as the literal expression
`'today'` by the write path (the defaulting of `log_time_task`), and
yields the one-element sequence holding the resolved date of `'today'`,
not an error. -/
theorem empty_options_default_today (L : DateLib) (d f : Nat)
    (h : L.parseDT (chars "today") = LibResult.parsed d f) (hf : 0 < f) :
    log_time_dates L [] = log_time_dates L (chars "today") ∧
    log_time_dates L [] = Except.ok [d] := by
  refine ⟨rfl, ?_⟩
  show parse_date_options L (chars "today") = Except.ok [d]
  unfold parse_date_options
  have h1 : containsList (pyLower (chars "today")) andSep = false := by decide
  have h2 : through_words.find?
      (fun tw => containsList (pyLower (chars "today")) tw) = none := by decide
  simp only [h1, Bool.false_eq_true, if_false, h2]
  show mapParse L [chars "today"] = Except.ok [d]
  simp [mapParse, parse_date, h, hf]

theorem empty_options_default_today_w :
    log_time_dates demoLib [] = log_time_dates demoLib (chars "today") ∧
    log_time_dates demoLib [] = Except.ok [7] :=
  empty_options_default_today demoLib 7 1 (by decide) (by decide)

/-- C2 (amended): in the range branch the assertion failure (the error
kind the spec calls `InvalidRange`) occurs exactly when the split does not
yield two segments, or when both segments resolve with start strictly
after end; a two-segment split whose segment fails to resolve (an empty
segment included) surfaces the resolver error instead. -/
theorem range_assert_error_kinds (L : DateLib) (opts tw : List Char)
    (hand : containsList (pyLower opts) andSep = false)
    (hfind : through_words.find? (fun w => containsList (pyLower opts) w) = some tw) :
    ((pySplitOn (pyLower opts) tw).length ≠ 2 →
      parse_date_options L opts = Except.error Err.invalidRange)
    ∧ (∀ a b s e, pySplitOn (pyLower opts) tw = [a, b] →
        parse_date L a = Except.ok s → parse_date L b = Except.ok e → e < s →
        parse_date_options L opts = Except.error Err.invalidRange) := by
  constructor
  · intro hlen
    unfold parse_date_options
    simp only [hand, Bool.false_eq_true, if_false, hfind]
    rcases hsp : pySplitOn (pyLower opts) tw with _ | ⟨a, _ | ⟨b, _ | ⟨c, rest⟩⟩⟩
    · rfl
    · rfl
    · exact absurd (by rw [hsp]; rfl) hlen
    · rfl
  · intro a b s e hsp ha hb hlt
    unfold parse_date_options
    simp only [hand, Bool.false_eq_true, if_false, hfind, hsp, ha, hb]
    rw [if_neg (by omega)]

theorem range_assert_error_kinds_w :
    parse_date_options demoLib (chars "friday through monday") =
      Except.error Err.invalidRange :=
  (range_assert_error_kinds demoLib (chars "friday through monday") (chars " through ")
    (by decide) (by decide)).2 (chars "friday") (chars "monday") 14 10
    (by decide) (by decide) (by decide) (by decide)

/-- C2 (counterexample): `"monday through "` takes the range branch (no
`' and '`, a connector present), its split yields the two segments
`["monday", ""]`, and the failure is `InvalidDate` on the empty segment,
not `InvalidRange` — the source asserts only the segment count, never
non-emptiness. -/
theorem range_empty_segment_cex :
    parse_date_options demoLib (chars "monday through ") =
      Except.error (Err.invalidDate []) ∧
    Err.invalidDate [] ≠ Err.invalidRange ∧
    containsList (pyLower (chars "monday through ")) andSep = false ∧
    through_words.any (fun tw => containsList (pyLower (chars "monday through ")) tw) = true ∧
    pySplitOn (pyLower (chars "monday through ")) (chars " through ") = [chars "monday", []] :=
  ⟨by decide, by decide, by decide, by decide, by decide⟩

/-- C3: in the range branch with two segments resolving to `s ≤ e`, and
the library round-tripping the rendered day numbers (as `parsedatetime`
does on ISO date strings), the expander returns exactly the days from `s`
to `e` inclusive, ascending with one-day increments. -/
theorem range_expansion_ok (L : DateLib) (opts tw a b : List Char) (s e : Nat)
    (hand : containsList (pyLower opts) andSep = false)
    (hfind : through_words.find? (fun w => containsList (pyLower opts) w) = some tw)
    (hsp : pySplitOn (pyLower opts) tw = [a, b])
    (ha : parse_date L a = Except.ok s)
    (hb : parse_date L b = Except.ok e)
    (hle : s ≤ e)
    (hrt : ∀ d, s ≤ d → d ≤ e → parse_date L (L.render d) = Except.ok d) :
    parse_date_options L opts =
      Except.ok ((List.range (e - s + 1)).map (fun i => s + i)) := by
  unfold parse_date_options
  simp only [hand, Bool.false_eq_true, if_false, hfind, hsp, ha, hb, if_pos hle]
  have hmap : (List.range (e - s + 1)).map (fun i => L.render (s + i)) =
      ((List.range (e - s + 1)).map (fun i => s + i)).map L.render := by
    rw [List.map_map]
    rfl
  rw [hmap]
  refine mapParse_render L _ (fun d hd => ?_)
  rcases List.mem_map.1 hd with ⟨i, hi, rfl⟩
  have := List.mem_range.1 hi
  exact hrt (s + i) (by omega) (by omega)

theorem range_expansion_ok_w :
    parse_date_options demoLib (chars "monday through friday") =
      Except.ok [10, 11, 12, 13, 14] := by
  rw [range_expansion_ok demoLib (chars "monday through friday") (chars " through ")
    (chars "monday") (chars "friday") 10 14 (by decide) (by decide) (by decide)
    (by decide) (by decide) (by decide)
    (fun d h1 h2 => by
      have : d = 10 ∨ d = 11 ∨ d = 12 ∨ d = 13 ∨ d = 14 := by omega
      rcases this with h | h | h | h | h <;> subst h <;> decide)]
  decide

/-- C6 (amended): the resolver raises `InvalidDate` exactly when the
library returns a zero confidence flag; an exception inside the library
propagates out of `parse_date` unchanged (the source wraps the call in no
`try`), so it is a distinct uncaught fault, not `InvalidDate`. -/
theorem parse_date_error_kinds (L : DateLib) (s : List Char) :
    (parse_date L s = Except.error Err.libFault ↔ L.parseDT s = LibResult.raised) ∧
    (parse_date L s = Except.error (Err.invalidDate s) ↔
      ∃ d, L.parseDT s = LibResult.parsed d 0) := by
  unfold parse_date
  cases hp : L.parseDT s with
  | parsed d flag =>
    cases flag with
    | zero => simp
    | succ k => simp
  | raised => simp

/-- C6 (counterexample): on an expression the library cannot process
(a year overflowing the platform integer range) the fault that leaves
`parse_date` is the propagated library exception, not `InvalidDate` — the
claim that such input is surfaced as `InvalidDate` is false. -/
theorem libfault_not_invalid_date_cex :
    parse_date demoLib (chars "99999999999999/1/1") = Except.error Err.libFault ∧
    Err.libFault ≠ Err.invalidDate (chars "99999999999999/1/1") :=
  ⟨rfl, by decide⟩

/-- C9 (amended): the parsed subcommand is the first whitespace token of
the text, lowercased; the parsed options are the text with every
case-sensitive occurrence of that lowercased token removed as a
substring (Python `replace` removes all occurrences), then stripped. -/
theorem parse_options_replace_all (text t : List Char) (rest : List (List Char))
    (h : pySplitWs (pyStrip text) = t :: rest) :
    parse_subcommand text = Except.ok (pyLower t) ∧
    parse_options text = Except.ok (pyStrip (pyReplace text (pyLower t) [])) := by
  have hs : parse_subcommand text = Except.ok (pyLower t) := by
    unfold parse_subcommand
    rw [h]
  refine ⟨hs, ?_⟩
  unfold parse_options
  rw [hs]

theorem parse_options_replace_all_w :
    parse_subcommand (chars "WFH tomorrow") = Except.ok (chars "wfh") ∧
    parse_options (chars "WFH tomorrow") = Except.ok (chars "WFH tomorrow") := by
  have h := parse_options_replace_all (chars "WFH tomorrow") (chars "WFH")
    [chars "tomorrow"] (by decide)
  refine ⟨h.1, ?_⟩
  rw [h.2]
  decide

/-- C9 (counterexample): on the text `"in in"` the code returns the empty
options string, because `replace` deletes both occurrences of the
subcommand `"in"`; the claim predicts the remainder `"in"` (only the one
leading token removed, the other occurrence left intact). -/
theorem options_replace_all_cex :
    parse_options (chars "in in") = Except.ok [] ∧
    pyStrip (List.drop (chars "in").length (pyStrip (chars "in in"))) = chars "in" ∧
    chars "in" ≠ ([] : List Char) :=
  ⟨rfl, by decide, by decide⟩

/-- C10 (amended): for raw text holding at least one whitespace token
whose lowercased first token is none of the recognized subcommands, the
handler returns the static unknown-subcommand help response; empty or
whitespace-only text instead fails with the uncaught `IndexError` of
`parse_subcommand`. -/
theorem unknown_subcommand_static_help (records : List StatusRecord)
    (today month_ago month_from_now : Nat) (text uid t : List Char)
    (rest : List (List Char))
    (h : pySplitWs (pyStrip text) = t :: rest)
    (hn : pyLower t ∉ [chars "wfh", chars "ooo", chars "in", chars "help",
      chars "schedule", chars "today", chars "history"]) :
    iam records today month_ago month_from_now text uid =
      Except.ok ⟨none, chars "Unknown subcommand!", [help_attachment_text]⟩ := by
  have hs : parse_subcommand text = Except.ok (pyLower t) := by
    unfold parse_subcommand
    rw [h]
  simp only [List.mem_cons, List.not_mem_nil, or_false, not_or] at hn
  obtain ⟨h1, h2, h3, h4, h5, h6, h7⟩ := hn
  unfold iam parse_options
  rw [hs]
  simp [beq_eq_false_iff_ne.mpr h1, beq_eq_false_iff_ne.mpr h2,
    beq_eq_false_iff_ne.mpr h3, beq_eq_false_iff_ne.mpr h4,
    beq_eq_false_iff_ne.mpr h5, beq_eq_false_iff_ne.mpr h6,
    beq_eq_false_iff_ne.mpr h7]

theorem unknown_subcommand_static_help_w :
    iam [] 0 0 0 (chars "frobnicate") (chars "u") =
      Except.ok ⟨none, chars "Unknown subcommand!", [help_attachment_text]⟩ :=
  unknown_subcommand_static_help [] 0 0 0 (chars "frobnicate") (chars "u")
    (chars "frobnicate") [] (by decide) (by decide)

/-- C10 (counterexample): empty and whitespace-only command text make the
handler fail with the uncaught `IndexError` from `parse_subcommand`
(`''.strip().split()[0]` indexes an empty list), instead of returning the
static help text the claim promises. -/
theorem empty_text_uncaught_cex :
    iam [] 0 0 0 [] (chars "u") = Except.error Err.indexError ∧
    iam [] 0 0 0 (chars "   ") (chars "u") = Except.error Err.indexError :=
  ⟨rfl, rfl⟩

/-- C7: a record contributes a line to an aggregated listing if and only
if its status lowercases to `wfh` or `ooo`, its date lies in the scope
window inclusive, and — for the history scope only — its `user_id` is the
requesting identity; `in` and unrecognized statuses never appear,
wherever the record sits in the store. -/
theorem aggregation_membership (records : List StatusRecord) (uid : List Char)
    (today month_ago month_from_now : Nat) (line : List Char) :
    (line ∈ get_todays_status records today ↔
      ∃ r, r ∈ records ∧
        (pyLower r.status = chars "wfh" ∨ pyLower r.status = chars "ooo") ∧
        today ≤ r.date ∧ r.date ≤ today ∧
        line = r.user_name ++ chars " - " ++ pyUpper r.status) ∧
    (line ∈ get_history records uid month_ago today ↔
      ∃ r, r ∈ records ∧
        (pyLower r.status = chars "wfh" ∨ pyLower r.status = chars "ooo") ∧
        month_ago ≤ r.date ∧ r.date ≤ today ∧ r.user_id = uid ∧
        line = natChars r.date ++ chars " - " ++ pyUpper r.status) ∧
    (line ∈ get_schedule records today month_from_now ↔
      ∃ r, r ∈ records ∧
        (pyLower r.status = chars "wfh" ∨ pyLower r.status = chars "ooo") ∧
        today ≤ r.date ∧ r.date ≤ month_from_now ∧
        line = natChars r.date ++ chars " - " ++ r.user_name ++ chars " - " ++ pyUpper r.status) := by
  refine ⟨?_, ?_, ?_⟩
  · simp only [get_todays_status, mem_pySort, List.mem_map, List.mem_filter,
      Bool.or_eq_true, beq_iff_eq]
    constructor
    · rintro ⟨r, ⟨⟨hm, hd⟩, hst⟩, hl⟩
      exact ⟨r, hm, hst, by omega, by omega, hl.symm⟩
    · rintro ⟨r, hm, hst, hd1, hd2, hl⟩
      exact ⟨r, ⟨⟨hm, by omega⟩, hst⟩, hl.symm⟩
  · simp only [get_history, mem_pySort, List.mem_map, List.mem_filter,
      Bool.and_eq_true, Bool.or_eq_true, beq_iff_eq, decide_eq_true_eq]
    constructor
    · rintro ⟨r, ⟨⟨hm, hu, hd1⟩, hst, hd2⟩, hl⟩
      exact ⟨r, hm, hst, hd1, hd2, hu, hl.symm⟩
    · rintro ⟨r, hm, hst, hd1, hd2, hu, hl⟩
      exact ⟨r, ⟨⟨hm, hu, hd1⟩, hst, hd2⟩, hl.symm⟩
  · simp only [get_schedule, mem_pySort, List.mem_map, List.mem_filter,
      Bool.and_eq_true, Bool.or_eq_true, beq_iff_eq, decide_eq_true_eq]
    constructor
    · rintro ⟨r, ⟨hm, ⟨hst, hd1⟩, hd2⟩, hl⟩
      exact ⟨r, hm, hst, hd1, hd2, hl.symm⟩
    · rintro ⟨r, hm, hst, hd1, hd2, hl⟩
      exact ⟨r, ⟨hm, ⟨hst, hd1⟩, hd2⟩, hl.symm⟩

/-- C8 (amended): when no stored record carries a recognized status, all
three aggregators return the empty sequence (no error), and the `today`
handler substitutes the fixed everyone-in-office message; the `schedule`
handler has no such substitution (see the counterexample). -/
theorem empty_aggregation_behavior (records : List StatusRecord) (uid : List Char)
    (today month_ago month_from_now : Nat)
    (h : ∀ r ∈ records,
      ¬(pyLower r.status = chars "wfh" ∨ pyLower r.status = chars "ooo")) :
    get_todays_status records today = [] ∧
    get_history records uid month_ago today = [] ∧
    get_schedule records today month_from_now = [] ∧
    iam records today month_ago month_from_now (chars "today") uid =
      Except.ok ⟨some (chars "in_channel"), chars "Today\x27s WFH/OOO statuses:",
        [chars "Everyone is planning to be in office today."]⟩ := by
  have ht : get_todays_status records today = [] := by
    unfold get_todays_status
    rw [List.filter_eq_nil_iff.mpr (fun r hr => ?_)]
    · rfl
    · have hmem := (List.mem_filter.1 hr).1
      simp only [Bool.or_eq_true, beq_iff_eq]
      exact h r hmem
  have hh : get_history records uid month_ago today = [] := by
    unfold get_history
    rw [List.filter_eq_nil_iff.mpr (fun r hr => ?_)]
    · rfl
    · have hmem := (List.mem_filter.1 hr).1
      simp only [Bool.and_eq_true, Bool.or_eq_true, beq_iff_eq, decide_eq_true_eq, not_and]
      intro hst
      exact absurd hst (h r hmem)
  have hs : get_schedule records today month_from_now = [] := by
    unfold get_schedule
    rw [List.filter_eq_nil_iff.mpr (fun r hr => ?_)]
    · rfl
    · simp only [Bool.and_eq_true, Bool.or_eq_true, beq_iff_eq, decide_eq_true_eq, not_and]
      intro hst
      exact absurd hst.1 (h r hr)
  refine ⟨ht, hh, hs, ?_⟩
  calc iam records today month_ago month_from_now (chars "today") uid
      = Except.ok ⟨some (chars "in_channel"), chars "Today\x27s WFH/OOO statuses:",
          [if (pyJoin (chars "\n") (get_todays_status records today)).isEmpty
            then chars "Everyone is planning to be in office today."
            else pyJoin (chars "\n") (get_todays_status records today)]⟩ := rfl
    _ = _ := by rw [ht]; rfl

theorem empty_aggregation_behavior_w :
    get_todays_status [⟨chars "u1", chars "Ann", 0, chars "in"⟩] 0 = [] ∧
    get_history [⟨chars "u1", chars "Ann", 0, chars "in"⟩] (chars "u1") 0 0 = [] ∧
    get_schedule [⟨chars "u1", chars "Ann", 0, chars "in"⟩] 0 0 = [] ∧
    iam [⟨chars "u1", chars "Ann", 0, chars "in"⟩] 0 0 0 (chars "today") (chars "u1") =
      Except.ok ⟨some (chars "in_channel"), chars "Today\x27s WFH/OOO statuses:",
        [chars "Everyone is planning to be in office today."]⟩ :=
  empty_aggregation_behavior [⟨chars "u1", chars "Ann", 0, chars "in"⟩] (chars "u1")
    0 0 0 (by decide)

/-- C8 (counterexample): with an empty store the `schedule` handler
returns the empty attachment text unchanged — it does not substitute the
everyone-in-office message the claim promises for the schedule context. -/
theorem schedule_no_substitution_cex :
    iam [] 0 0 0 (chars "schedule") (chars "u") =
      Except.ok ⟨some (chars "in_channel"), chars "Upcoming WFH/OOO statuses:", [[]]⟩ ∧
    ([] : List Char) ≠ chars "Everyone is planning to be in office today." :=
  ⟨rfl, by decide⟩
